import Mathlib

/-!
Shallow embedding of `net/802/fc.c` (Fibre Channel link-layer framing) and of
the device-level collaborators it references.  Byte buffers are `List Nat`
(each entry one octet), socket buffers carry an explicit headroom so that
`skb_push` is modelled faithfully: pushing exposes the tail of the headroom in
front of the current data without initialising it.
-/

namespace FC

/-! ### Constants from `if_ether.h`, `if_arp.h`, `if.h`, `if_fc.h` -/

def ETH_P_IP : Nat := 0x0800
def ETH_P_ARP : Nat := 0x0806
def ETH_ALEN : Nat := 6
def FC_ALEN : Nat := 6
def EXTENDED_SAP : Nat := 0xAA
def UI_CMD : Nat := 0x03
def ARPHRD_IEEE802 : Nat := 6
def IFF_BROADCAST : Nat := 2
def NET_NAME_ENUM : Nat := 1
def MAX_ADDR_LEN : Nat := 32

/-- Size in bytes of `struct fch_hdr` (`daddr[FC_ALEN]` then `saddr[FC_ALEN]`). -/
def fch_hdr_size : Nat := FC_ALEN + FC_ALEN

/-- Size in bytes of `struct fcllc`
(`dsap`, `ssap`, `llc`, `protid[3]`, `ethertype` as `__be16`). -/
def fcllc_size : Nat := 8

/-- Value of `FC_HLEN = sizeof(struct fch_hdr) + sizeof(struct fcllc)`. -/
def FC_HLEN : Nat := fch_hdr_size + fcllc_size

/-! ### Byte-buffer primitives -/

/-- Model of `memcpy` into a byte list: overwrite `l` starting at offset
`off` with the bytes of `src` (positions outside `l` are dropped, as
`List.set` ignores out-of-range indices; all uses below stay in range). -/
def writeBytes : List Nat → Nat → List Nat → List Nat
  | l, _, [] => l
  | l, off, b :: bs => writeBytes (l.set off b) (off + 1) bs

/-- A socket buffer: `headroom` is the reserved space in front of the current
data pointer, `data` the bytes from the data pointer onward.  `skb_push`
moves the data pointer back into the headroom. -/
structure SKB where
  headroom : List Nat
  data : List Nat
  deriving Repr, DecidableEq

/-- Model of `skb_push(skb, n)`: expose the last `n` headroom bytes in front
of the data.  The kernel panics when the headroom is too small; we return
`none`. -/
def skb_push (skb : SKB) (n : Nat) : Option SKB :=
  if n ≤ skb.headroom.length then
    some ⟨skb.headroom.take (skb.headroom.length - n),
          skb.headroom.drop (skb.headroom.length - n) ++ skb.data⟩
  else none

/-! ### Device descriptor (`struct net_device`, the fields this file touches) -/

structure NetDevice where
  dev_type : Nat := 0
  hard_header_len : Nat := 0
  mtu : Nat := 0
  addr_len : Nat := 0
  tx_queue_len : Nat := 0
  flags : Nat := 0
  broadcast : List Nat := List.replicate MAX_ADDR_LEN 0
  dev_addr : List Nat := []
  header_ops_installed : Bool := false
  deriving Repr, DecidableEq

/-! ### `fc_header` -/

/-- Header length chosen by `fc_header`: hardware header plus LLC/SNAP for
IP/ARP, hardware header alone otherwise. -/
def fc_hdr_len (type : Nat) : Nat :=
  if type = ETH_P_IP ∨ type = ETH_P_ARP then fch_hdr_size + fcllc_size
  else fch_hdr_size

/-- The eight bytes `fc_header` stores in the `struct fcllc` overlay:
`dsap = ssap = EXTENDED_SAP`, `llc = UI_CMD`, `protid` zeroed, and
`ethertype = htons(type)` (big-endian low 16 bits of `type`). -/
def fcllc_bytes (type : Nat) : List Nat :=
  [EXTENDED_SAP, EXTENDED_SAP, UI_CMD, 0, 0, 0, type / 256 % 256, type % 256]

/-- Translation of `fc_header` from `net/802/fc.c`: push the header, fill
the SNAP overlay for IP/ARP, copy the source address (the device address
when `saddr` is `NULL`), then either copy the destination and return the
header length, or return its negation when `daddr` is `NULL`.  `len` is
unused by the code.  The result pairs the C return value with the updated
buffer; `none` models the `skb_push` panic on insufficient headroom. -/
def fc_header (skb : SKB) (dev : NetDevice) (type : Nat)
    (daddr saddr : Option (List Nat)) (len : Nat) : Option (Int × SKB) :=
  let hdr_len := fc_hdr_len type
  match skb_push skb hdr_len with
  | none => none
  | some skb1 =>
    let afterSnap :=
      if type = ETH_P_IP ∨ type = ETH_P_ARP then
        writeBytes skb1.data fch_hdr_size (fcllc_bytes type)
      else skb1.data
    let afterSrc :=
      match saddr with
      | some s => writeBytes afterSnap FC_ALEN (s.take dev.addr_len)
      | none => writeBytes afterSnap FC_ALEN (dev.dev_addr.take dev.addr_len)
    match daddr with
    | some d =>
      some ((hdr_len : Int), { skb1 with data := writeBytes afterSrc 0 (d.take dev.addr_len) })
    | none =>
      some (-(hdr_len : Int), { skb1 with data := afterSrc })

/-! ### `eth_validate_addr` (device-level collaborator) -/

inductive AddrError where
  | InvalidAddress
  deriving Repr, DecidableEq

/-- Modelled from the spec: `eth_validate_addr` (referenced by
`fc_header_ops.validate` but defined outside this repository's sources) is
the device-level admission check that "verifies [the configured destination
address] is of correct length and not the all-zero address" and "fails with
`InvalidAddress` when violated". -/
def eth_validate_addr (dev : NetDevice) (addr : List Nat) : Except AddrError Unit :=
  if addr.length = dev.addr_len ∧ ¬ (∀ b ∈ addr, b = 0) then .ok ()
  else .error .InvalidAddress

/-- The `struct header_ops` record with the two callbacks `fc.c` installs. -/
structure HeaderOps where
  create : SKB → NetDevice → Nat → Option (List Nat) → Option (List Nat) → Nat →
    Option (Int × SKB)
  validate : NetDevice → List Nat → Except AddrError Unit

def fc_header_ops : HeaderOps :=
  { create := fc_header, validate := eth_validate_addr }

/-! ### `fc_setup` and the allocators -/

/-- Model of `eth_broadcast_addr`: set the first `ETH_ALEN` bytes to
`0xFF`. -/
def eth_broadcast_addr (addr : List Nat) : List Nat :=
  writeBytes addr 0 (List.replicate ETH_ALEN 0xFF)

/-- Translation of `fc_setup` from `net/802/fc.c`. -/
def fc_setup (dev : NetDevice) : NetDevice :=
  { dev with
    header_ops_installed := true
    dev_type := ARPHRD_IEEE802
    hard_header_len := FC_HLEN
    mtu := 2024
    addr_len := FC_ALEN
    tx_queue_len := 100
    flags := IFF_BROADCAST
    broadcast := eth_broadcast_addr dev.broadcast }

/-- Record of one `alloc_netdev_mqs` call (its non-function arguments). -/
structure AllocCall where
  sizeof_priv : Int
  name : String
  name_assign_type : Nat
  txqs : Nat
  rxqs : Nat
  deriving Repr, DecidableEq

/-- Modelled from the spec: `alloc_netdev_mqs` is the external
device-construction collaborator (not under this repository's sources); the
spec treats it as "a factory collaborator producing a populated Device
Descriptor".  We model it as recording its arguments and applying `setup` to
a fresh descriptor. -/
def alloc_netdev_mqs (sizeof_priv : Int) (name : String) (name_assign_type : Nat)
    (setup : NetDevice → NetDevice) (txqs rxqs : Nat) : AllocCall × NetDevice :=
  (⟨sizeof_priv, name, name_assign_type, txqs, rxqs⟩, setup {})

/-- Translation of `alloc_fcdev_mq` from `net/802/fc.c`. -/
def alloc_fcdev_mq (sizeof_priv : Int) (queue_count : Nat) : AllocCall × NetDevice :=
  alloc_netdev_mqs sizeof_priv "fc%d" NET_NAME_ENUM fc_setup queue_count queue_count

/-- Translation of `alloc_fcdev` from `net/802/fc.c` (legacy single-queue
wrapper). -/
def alloc_fcdev (sizeof_priv : Int) : AllocCall × NetDevice :=
  alloc_fcdev_mq sizeof_priv 1

/-! ### Test fixtures (concrete inputs used by the closed witnesses) -/

/-- A freshly configured Fibre Channel device with a concrete MAC. -/
def devA : NetDevice := fc_setup { dev_addr := [17, 34, 51, 68, 85, 102] }

/-- A default (unconfigured) device descriptor. -/
def dev0 : NetDevice := {}

/-- A buffer with 20 bytes of headroom (filled with `0x5A`) and a 3-byte
payload. -/
def skbA : SKB := ⟨List.replicate 20 90, [1, 2, 3]⟩

/-- A second buffer with the same payload as `skbA` but different headroom
size and contents. -/
def skbB : SKB := ⟨List.replicate 25 7, [1, 2, 3]⟩

/-- A concrete destination hardware address. -/
def dstA : List Nat := [170, 187, 204, 221, 238, 255]

/-- A concrete source hardware address. -/
def srcA : List Nat := [1, 2, 3, 4, 5, 6]

/-! ### Properties of the byte-buffer primitives -/

theorem length_writeBytes (src : List Nat) : ∀ (l : List Nat) (off : Nat),
    (writeBytes l off src).length = l.length := by
  induction src with
  | nil => intro l off; rfl
  | cons b bs ih => intro l off; rw [writeBytes, ih, List.length_set]

theorem getElem?_writeBytes (src : List Nat) : ∀ (l : List Nat) (off i : Nat),
    (writeBytes l off src)[i]? =
      if off ≤ i ∧ i < off + src.length ∧ i < l.length then src[i - off]?
      else l[i]? := by
  induction src with
  | nil =>
    intro l off i
    rw [writeBytes, List.length_nil, if_neg (by omega)]
  | cons b bs ih =>
    intro l off i
    rw [writeBytes, ih, List.length_set, List.getElem?_set, List.length_cons]
    by_cases h1 : off + 1 ≤ i ∧ i < off + 1 + bs.length ∧ i < l.length
    · rw [if_pos h1, if_pos (by omega)]
      have h2 : i - off = (i - (off + 1)) + 1 := by omega
      rw [h2, List.getElem?_cons_succ]
    · rw [if_neg h1]
      by_cases h3 : off = i
      · subst h3
        by_cases h4 : off < l.length
        · rw [if_pos rfl, if_pos h4, if_pos (by omega), Nat.sub_self,
            List.getElem?_cons_zero]
        · rw [if_pos rfl, if_neg h4, if_neg (by omega)]
          exact (List.getElem?_eq_none (by omega)).symm
      · rw [if_neg h3, if_neg (by omega)]

theorem writeBytes_take_le (src l : List Nat) (off n : Nat) (h : n ≤ off) :
    (writeBytes l off src).take n = l.take n := by
  apply List.ext_getElem?
  intro i
  rw [List.getElem?_take, List.getElem?_take, getElem?_writeBytes]
  split_ifs <;> first | rfl | exact ((by omega : False)).elim

theorem writeBytes_drop_ge (src l : List Nat) (off n : Nat)
    (h : off + src.length ≤ n) :
    (writeBytes l off src).drop n = l.drop n := by
  apply List.ext_getElem?
  intro i
  rw [List.getElem?_drop, List.getElem?_drop, getElem?_writeBytes]
  split_ifs <;> first | rfl | exact ((by omega : False)).elim

theorem writeBytes_take_comm (src l : List Nat) (off n : Nat)
    (h : off + src.length ≤ n) :
    (writeBytes l off src).take n = writeBytes (l.take n) off src := by
  apply List.ext_getElem?
  intro i
  rw [List.getElem?_take, getElem?_writeBytes, getElem?_writeBytes,
    List.getElem?_take, List.length_take]
  split_ifs <;> first | rfl | exact ((by omega : False)).elim

theorem writeBytes_slice (src l : List Nat) (off : Nat)
    (h : off + src.length ≤ l.length) :
    ((writeBytes l off src).drop off).take src.length = src := by
  apply List.ext_getElem?
  intro i
  rw [List.getElem?_take, List.getElem?_drop, getElem?_writeBytes]
  by_cases hi : i < src.length
  · rw [if_pos hi, if_pos (by omega), Nat.add_sub_cancel_left]
  · rw [if_neg hi]
    exact (List.getElem?_eq_none (by omega)).symm

theorem writeBytes_append (src : List Nat) : ∀ (l m r : List Nat) (off : Nat),
    l.length = off → m.length = src.length →
    writeBytes (l ++ m ++ r) off src = l ++ src ++ r := by
  induction src with
  | nil =>
    intro l m r off _ hm
    have : m = [] := List.eq_nil_of_length_eq_zero hm
    subst this; rfl
  | cons b bs ih =>
    intro l m r off hoff hm
    cases m with
    | nil => simp at hm
    | cons c cs =>
      have hcs : cs.length = bs.length := by simpa using hm
      subst hoff
      rw [writeBytes]
      have h1 : (l ++ (c :: cs) ++ r).set l.length b = (l ++ [b]) ++ (cs ++ r) := by
        simp [List.set_append]
      rw [h1]
      have h2 := ih (l ++ [b]) cs r (l.length + 1) (by simp) hcs
      simp only [List.append_assoc] at h2 ⊢
      rw [h2]
      simp

theorem writeBytes_append' (src l m r : List Nat) (off : Nat)
    (hoff : l.length = off) (hm : m.length = src.length) :
    writeBytes (l ++ (m ++ r)) off src = l ++ (src ++ r) := by
  have h0 := writeBytes_append src l m r off hoff hm
  simpa [List.append_assoc] using h0

/-! ### Unfolding lemmas for `skb_push` and `fc_header` -/

theorem skb_push_of_le (skb : SKB) (n : Nat) (h : n ≤ skb.headroom.length) :
    skb_push skb n = some ⟨skb.headroom.take (skb.headroom.length - n),
      skb.headroom.drop (skb.headroom.length - n) ++ skb.data⟩ := by
  rw [skb_push, if_pos h]

theorem skb_push_of_gt (skb : SKB) (n : Nat) (h : skb.headroom.length < n) :
    skb_push skb n = none := by
  rw [skb_push, if_neg (by omega)]

theorem fc_header_of_gt (skb : SKB) (dev : NetDevice) (type : Nat)
    (daddr saddr : Option (List Nat)) (len : Nat)
    (h : skb.headroom.length < fc_hdr_len type) :
    fc_header skb dev type daddr saddr len = none := by
  rw [fc_header, skb_push_of_gt _ _ h]

theorem fc_header_some_daddr (skb : SKB) (dev : NetDevice) (type : Nat)
    (d : List Nat) (saddr : Option (List Nat)) (len : Nat)
    (h : fc_hdr_len type ≤ skb.headroom.length) :
    fc_header skb dev type (some d) saddr len =
      some ((fc_hdr_len type : Int),
        ⟨skb.headroom.take (skb.headroom.length - fc_hdr_len type),
         writeBytes
           (writeBytes
             (if type = ETH_P_IP ∨ type = ETH_P_ARP then
                writeBytes
                  (skb.headroom.drop (skb.headroom.length - fc_hdr_len type) ++ skb.data)
                  fch_hdr_size (fcllc_bytes type)
              else skb.headroom.drop (skb.headroom.length - fc_hdr_len type) ++ skb.data)
             FC_ALEN ((saddr.getD dev.dev_addr).take dev.addr_len))
           0 (d.take dev.addr_len)⟩) := by
  rw [fc_header, skb_push_of_le _ _ h]
  cases saddr <;> rfl

theorem fc_header_none_daddr (skb : SKB) (dev : NetDevice) (type : Nat)
    (saddr : Option (List Nat)) (len : Nat)
    (h : fc_hdr_len type ≤ skb.headroom.length) :
    fc_header skb dev type none saddr len =
      some (-(fc_hdr_len type : Int),
        ⟨skb.headroom.take (skb.headroom.length - fc_hdr_len type),
         writeBytes
           (if type = ETH_P_IP ∨ type = ETH_P_ARP then
              writeBytes
                (skb.headroom.drop (skb.headroom.length - fc_hdr_len type) ++ skb.data)
                fch_hdr_size (fcllc_bytes type)
            else skb.headroom.drop (skb.headroom.length - fc_hdr_len type) ++ skb.data)
           FC_ALEN ((saddr.getD dev.dev_addr).take dev.addr_len)⟩) := by
  rw [fc_header, skb_push_of_le _ _ h]
  cases saddr <;> rfl

/-- Fully resolved calls on a standard FC device (6-byte addresses of full
length) produce exactly the destination, the source, the SNAP bytes when
the protocol asks for them, and then the untouched payload. -/
theorem fc_header_data_some (skb : SKB) (dev : NetDevice) (type : Nat)
    (d : List Nat) (saddr : Option (List Nat)) (len : Nat)
    (hroom : fc_hdr_len type ≤ skb.headroom.length)
    (halen : dev.addr_len = FC_ALEN)
    (hd : d.length = FC_ALEN)
    (hs : (saddr.getD dev.dev_addr).length = FC_ALEN) :
    fc_header skb dev type (some d) saddr len =
      some ((fc_hdr_len type : Int),
        ⟨skb.headroom.take (skb.headroom.length - fc_hdr_len type),
         d ++ (saddr.getD dev.dev_addr ++
           ((if type = ETH_P_IP ∨ type = ETH_P_ARP then fcllc_bytes type else []) ++
             skb.data))⟩) := by
  rw [fc_header_some_daddr _ _ _ _ _ _ hroom]
  have hP : (skb.headroom.drop (skb.headroom.length - fc_hdr_len type)).length
      = fc_hdr_len type := by rw [List.length_drop]; omega
  set P := skb.headroom.drop (skb.headroom.length - fc_hdr_len type) with hPdef
  have hsT : (saddr.getD dev.dev_addr).take dev.addr_len = saddr.getD dev.dev_addr := by
    rw [halen, ← hs, List.take_length]
  have hdT : d.take dev.addr_len = d := by
    rw [halen, ← hd, List.take_length]
  by_cases htype : type = ETH_P_IP ∨ type = ETH_P_ARP
  · have hlen : fc_hdr_len type = 20 := by rw [fc_hdr_len, if_pos htype]; decide
    have hP20 : P.length = 20 := by rw [hP, hlen]
    have t1 : (P.take fch_hdr_size).length = fch_hdr_size := by
      rw [List.length_take, hP20]; decide
    have t2 : (P.drop fch_hdr_size).length = (fcllc_bytes type).length := by
      rw [List.length_drop, hP20]; rfl
    have step1 : P ++ skb.data
        = P.take fch_hdr_size ++ (P.drop fch_hdr_size ++ skb.data) := by
      rw [← List.append_assoc, List.take_append_drop]
    have step2 : writeBytes (P ++ skb.data) fch_hdr_size (fcllc_bytes type)
        = P.take fch_hdr_size ++ (fcllc_bytes type ++ skb.data) := by
      rw [step1]
      exact writeBytes_append' (fcllc_bytes type) (P.take fch_hdr_size)
        (P.drop fch_hdr_size) skb.data fch_hdr_size t1 t2
    have t3 : (P.take fch_hdr_size).take FC_ALEN = P.take FC_ALEN := by
      have hmin : FC_ALEN ⊓ fch_hdr_size = FC_ALEN := by decide
      rw [List.take_take, hmin]
    have t4 : (P.take FC_ALEN).length = FC_ALEN := by
      rw [List.length_take, hP20]; decide
    have t5 : ((P.take fch_hdr_size).drop FC_ALEN).length
        = (saddr.getD dev.dev_addr).length := by
      rw [List.length_drop, t1, hs]; decide
    have step3 : P.take fch_hdr_size
        = P.take FC_ALEN ++ (P.take fch_hdr_size).drop FC_ALEN := by
      conv_lhs => rw [← List.take_append_drop FC_ALEN (P.take fch_hdr_size)]
      rw [t3]
    have step4 : writeBytes (P.take fch_hdr_size ++ (fcllc_bytes type ++ skb.data))
          FC_ALEN (saddr.getD dev.dev_addr)
        = P.take FC_ALEN ++
            (saddr.getD dev.dev_addr ++ (fcllc_bytes type ++ skb.data)) := by
      rw [step3, List.append_assoc]
      exact writeBytes_append' (saddr.getD dev.dev_addr) (P.take FC_ALEN)
        ((P.take fch_hdr_size).drop FC_ALEN) (fcllc_bytes type ++ skb.data) FC_ALEN t4 t5
    have step5 : writeBytes
          (P.take FC_ALEN ++
            (saddr.getD dev.dev_addr ++ (fcllc_bytes type ++ skb.data))) 0 d
        = d ++ (saddr.getD dev.dev_addr ++ (fcllc_bytes type ++ skb.data)) := by
      have h0 := writeBytes_append' d ([] : List Nat) (P.take FC_ALEN)
        (saddr.getD dev.dev_addr ++ (fcllc_bytes type ++ skb.data)) 0 rfl
        (by rw [t4, hd])
      simpa using h0
    rw [if_pos htype, hsT, hdT, step2, step4, step5, if_pos htype]
  · have hlen : fc_hdr_len type = 12 := by rw [fc_hdr_len, if_neg htype]; decide
    have hP12 : P.length = 12 := by rw [hP, hlen]
    have t4 : (P.take FC_ALEN).length = FC_ALEN := by
      rw [List.length_take, hP12]; decide
    have t5 : (P.drop FC_ALEN).length = (saddr.getD dev.dev_addr).length := by
      rw [List.length_drop, hP12, hs]; decide
    have step1 : P ++ skb.data = P.take FC_ALEN ++ (P.drop FC_ALEN ++ skb.data) := by
      rw [← List.append_assoc, List.take_append_drop]
    have step4 : writeBytes (P ++ skb.data) FC_ALEN (saddr.getD dev.dev_addr)
        = P.take FC_ALEN ++ (saddr.getD dev.dev_addr ++ skb.data) := by
      rw [step1]
      exact writeBytes_append' (saddr.getD dev.dev_addr) (P.take FC_ALEN)
        (P.drop FC_ALEN) skb.data FC_ALEN t4 t5
    have step5 : writeBytes
          (P.take FC_ALEN ++ (saddr.getD dev.dev_addr ++ skb.data)) 0 d
        = d ++ (saddr.getD dev.dev_addr ++ skb.data) := by
      have h0 := writeBytes_append' d ([] : List Nat) (P.take FC_ALEN)
        (saddr.getD dev.dev_addr ++ skb.data) 0 rfl (by rw [t4, hd])
      simpa using h0
    rw [if_neg htype, hsT, hdT, step4, step5, if_neg htype]
    simp

/-- Hardware-header size never exceeds the chosen header length. -/
theorem fch_le_fc_hdr_len (type : Nat) : fch_hdr_size ≤ fc_hdr_len type := by
  rw [fc_hdr_len]; split_ifs <;> omega

/-- Taking at most the left part of an append ignores the right part. -/
theorem take_append_of_le (l r : List Nat) (n : Nat) (h : n ≤ l.length) :
    (l ++ r).take n = l.take n := by
  rw [List.take_append_eq_append_take, Nat.sub_eq_zero_of_le h]
  simp

/-- Length of the bytes exposed by a successful push. -/
theorem pushed_length (skb : SKB) (n : Nat) (h : n ≤ skb.headroom.length) :
    (skb.headroom.drop (skb.headroom.length - n)).length = n := by
  rw [List.length_drop]; omega

/-! ## Claims -/

/-- C10: the legacy single-queue allocator is the multi-queue allocator
specialized to one queue: for every private-data size,
`alloc_fcdev(sizeof_priv)` returns the same result as
`alloc_fcdev_mq(sizeof_priv, 1)`. -/
theorem alloc_fcdev_eq_alloc_fcdev_mq_one :
    ∀ sizeof_priv : Int, alloc_fcdev sizeof_priv = alloc_fcdev_mq sizeof_priv 1 :=
  fun _ => rfl

/-- C5: the device-level address validation check installed by
`fc_header_ops` fails with `InvalidAddress` exactly when the examined
address has the wrong length or is the all-zero address, and succeeds
otherwise. -/
theorem fc_header_ops_validate_spec (dev : NetDevice) (addr : List Nat) :
    (fc_header_ops.validate dev addr = .error .InvalidAddress ↔
      addr.length ≠ dev.addr_len ∨ ∀ b ∈ addr, b = 0) ∧
    (fc_header_ops.validate dev addr = .ok () ↔
      addr.length = dev.addr_len ∧ ¬ ∀ b ∈ addr, b = 0) := by
  have hv : fc_header_ops.validate = eth_validate_addr := rfl
  rw [hv]
  by_cases h1 : addr.length = dev.addr_len <;>
    by_cases h2 : ∀ b ∈ addr, b = 0 <;>
      simp [eth_validate_addr, h1, h2]

/-- C7 counterexample: `fc_setup` does not set the device header length to
the hardware-header size (`sizeof(struct fch_hdr)`, 12 bytes); it sets it
to `FC_HLEN`, the hardware-header size plus the LLC/SNAP size (20). -/
theorem fc_setup_header_len_cex :
    (fc_setup dev0).hard_header_len ≠ fch_hdr_size ∧
    (fc_setup dev0).hard_header_len = fch_hdr_size + fcllc_size := by
  decide

/-- C7 (amended): device-parameter initialization assigns exactly the fixed
constants — header length equal to the hardware-header size plus the
LLC/SNAP sub-header size (`FC_HLEN`, 20), the fixed hardware-address
length, MTU 2024, transmit queue length 100, the broadcast flag, the IEEE
802 device type, and the broadcast hardware address all-ones over the
configured address length — with no branching and no failure. -/
theorem fc_setup_assigns (dev : NetDevice) (hb : ETH_ALEN ≤ dev.broadcast.length) :
    (fc_setup dev).hard_header_len = fch_hdr_size + fcllc_size ∧
    (fc_setup dev).addr_len = FC_ALEN ∧
    (fc_setup dev).mtu = 2024 ∧
    (fc_setup dev).tx_queue_len = 100 ∧
    (fc_setup dev).flags = IFF_BROADCAST ∧
    (fc_setup dev).dev_type = ARPHRD_IEEE802 ∧
    (fc_setup dev).broadcast.take (fc_setup dev).addr_len
      = List.replicate (fc_setup dev).addr_len 0xFF := by
  refine ⟨rfl, rfl, rfl, rfl, rfl, rfl, ?_⟩
  show (eth_broadcast_addr dev.broadcast).take FC_ALEN = List.replicate FC_ALEN 0xFF
  rw [eth_broadcast_addr, show FC_ALEN = ETH_ALEN from rfl]
  have h0 := writeBytes_slice (List.replicate ETH_ALEN 0xFF) dev.broadcast 0
    (by simpa using hb)
  simpa using h0

/-- Closed witness for the amended C7, at a concrete device. -/
theorem fc_setup_assigns_witness :
    (fc_setup dev0).hard_header_len = fch_hdr_size + fcllc_size ∧
    (fc_setup dev0).addr_len = FC_ALEN ∧
    (fc_setup dev0).mtu = 2024 ∧
    (fc_setup dev0).tx_queue_len = 100 ∧
    (fc_setup dev0).flags = IFF_BROADCAST ∧
    (fc_setup dev0).dev_type = ARPHRD_IEEE802 ∧
    (fc_setup dev0).broadcast.take (fc_setup dev0).addr_len
      = List.replicate (fc_setup dev0).addr_len 0xFF :=
  fc_setup_assigns dev0 (by decide)

/-- C2: for protocol types other than IP and ARP the builder returns the
hardware-header size alone, and the buffer holds exactly destination,
source, and the untouched payload — no LLC/SNAP bytes. -/
theorem fc_header_non_ip_arp (skb : SKB) (dev : NetDevice) (type : Nat)
    (d : List Nat) (saddr : Option (List Nat)) (len : Nat)
    (htype : ¬(type = ETH_P_IP ∨ type = ETH_P_ARP))
    (hroom : fch_hdr_size ≤ skb.headroom.length)
    (halen : dev.addr_len = FC_ALEN)
    (hd : d.length = FC_ALEN)
    (hs : (saddr.getD dev.dev_addr).length = FC_ALEN) :
    ∃ skb', fc_header skb dev type (some d) saddr len
        = some ((fch_hdr_size : Int), skb') ∧
      skb'.data = d ++ (saddr.getD dev.dev_addr ++ skb.data) := by
  have hlen : fc_hdr_len type = fch_hdr_size := by rw [fc_hdr_len, if_neg htype]
  have hroom' : fc_hdr_len type ≤ skb.headroom.length := by rw [hlen]; exact hroom
  rw [fc_header_data_some _ _ _ _ _ _ hroom' halen hd hs, hlen, if_neg htype]
  exact ⟨_, rfl, by simp⟩

/-- Closed witness for C2, protocol type `0x1234`. -/
theorem fc_header_non_ip_arp_witness :
    ∃ skb', fc_header skbA devA 0x1234 (some dstA) (some srcA) 3
        = some ((fch_hdr_size : Int), skb') ∧
      skb'.data = dstA ++ ((some srcA).getD devA.dev_addr ++ skbA.data) :=
  fc_header_non_ip_arp skbA devA 0x1234 dstA (some srcA) 3
    (by decide) (by decide) (by decide) (by decide) (by decide)

/-- C8: the builder is deterministic — two calls with identical protocol
type, addresses, payload length and device on fresh buffers with the same
payload (any headroom contents) return equal values and byte-identical
buffers. -/
theorem fc_header_deterministic (skb₁ skb₂ : SKB) (dev : NetDevice) (type : Nat)
    (d : List Nat) (saddr : Option (List Nat)) (len : Nat)
    (hdata : skb₁.data = skb₂.data)
    (h₁ : fc_hdr_len type ≤ skb₁.headroom.length)
    (h₂ : fc_hdr_len type ≤ skb₂.headroom.length)
    (halen : dev.addr_len = FC_ALEN)
    (hd : d.length = FC_ALEN)
    (hs : (saddr.getD dev.dev_addr).length = FC_ALEN) :
    (fc_header skb₁ dev type (some d) saddr len).map (fun x => (x.1, x.2.data)) =
    (fc_header skb₂ dev type (some d) saddr len).map (fun x => (x.1, x.2.data)) := by
  rw [fc_header_data_some _ _ _ _ _ _ h₁ halen hd hs,
    fc_header_data_some _ _ _ _ _ _ h₂ halen hd hs]
  simp [hdata]

/-- Closed witness for C8: same payload, different headroom contents. -/
theorem fc_header_deterministic_witness :
    (fc_header skbA devA ETH_P_IP (some dstA) none 9).map (fun x => (x.1, x.2.data)) =
    (fc_header skbB devA ETH_P_IP (some dstA) none 9).map (fun x => (x.1, x.2.data)) :=
  fc_header_deterministic skbA skbB devA ETH_P_IP dstA none 9
    (by decide) (by decide) (by decide) (by decide) (by decide) (by decide)

/-- C1: for protocol types IP and ARP with a destination provided, the
returned header length is the hardware-header size plus the LLC/SNAP size,
and the SNAP sub-header holds `EXTENDED_SAP` in both service-access-point
fields, `UI_CMD` as control, three zero organization-identifier bytes, and
the 2-byte protocol type encoded big-endian. -/
theorem fc_header_ip_arp_snap (skb : SKB) (dev : NetDevice) (type : Nat)
    (d : List Nat) (saddr : Option (List Nat)) (len : Nat)
    (htype : type = ETH_P_IP ∨ type = ETH_P_ARP)
    (hroom : fch_hdr_size + fcllc_size ≤ skb.headroom.length)
    (halen : dev.addr_len ≤ FC_ALEN)
    (h16 : type < 65536) :
    ∃ skb', fc_header skb dev type (some d) saddr len
        = some ((fch_hdr_size + fcllc_size : Int), skb') ∧
      (skb'.data.drop fch_hdr_size).take fcllc_size
        = [EXTENDED_SAP, EXTENDED_SAP, UI_CMD, 0, 0, 0, type / 256, type % 256] ∧
      type / 256 * 256 + type % 256 = type := by
  have e6 : FC_ALEN = 6 := rfl
  have e12 : fch_hdr_size = 12 := rfl
  have e8 : fcllc_size = 8 := rfl
  have hlen : fc_hdr_len type = fch_hdr_size + fcllc_size := by
    rw [fc_hdr_len, if_pos htype]
  have hroom' : fc_hdr_len type ≤ skb.headroom.length := by rw [hlen]; exact hroom
  rw [fc_header_some_daddr _ _ _ _ _ _ hroom', hlen, if_pos htype]
  refine ⟨_, rfl, ?_, by omega⟩
  have hPl := pushed_length skb (fch_hdr_size + fcllc_size) hroom
  set P := skb.headroom.drop (skb.headroom.length - (fch_hdr_size + fcllc_size)) with hPdef
  rw [writeBytes_drop_ge _ _ _ _ (by rw [List.length_take]; omega),
    writeBytes_drop_ge _ _ _ _ (by rw [List.length_take]; omega)]
  have hC : fch_hdr_size + (fcllc_bytes type).length ≤ (P ++ skb.data).length := by
    rw [List.length_append, hPl, show (fcllc_bytes type).length = fcllc_size from rfl]
    omega
  have h0 := writeBytes_slice (fcllc_bytes type) (P ++ skb.data) fch_hdr_size hC
  rw [show (fcllc_bytes type).length = fcllc_size from rfl] at h0
  rw [h0, fcllc_bytes, Nat.mod_eq_of_lt (show type / 256 < 256 by omega)]

/-- Closed witness for C1, at protocol type `ETH_P_IP`. -/
theorem fc_header_ip_arp_snap_witness :
    ∃ skb', fc_header skbA devA ETH_P_IP (some dstA) none 5
        = some ((fch_hdr_size + fcllc_size : Int), skb') ∧
      (skb'.data.drop fch_hdr_size).take fcllc_size
        = [EXTENDED_SAP, EXTENDED_SAP, UI_CMD, 0, 0, 0,
            ETH_P_IP / 256, ETH_P_IP % 256] ∧
      ETH_P_IP / 256 * 256 + ETH_P_IP % 256 = ETH_P_IP :=
  fc_header_ip_arp_snap skbA devA ETH_P_IP dstA none 5
    (Or.inl rfl) (by decide) (by decide) (by decide)

/-- C4: the source-address field of the header (at offset `FC_ALEN`) equals
the provided source address when one is given, and the device's configured
hardware address otherwise, byte-for-byte over the device's
hardware-address length — for both destination cases. -/
theorem fc_header_source_field (skb : SKB) (dev : NetDevice) (type : Nat)
    (daddr saddr : Option (List Nat)) (len : Nat)
    (hroom : fc_hdr_len type ≤ skb.headroom.length)
    (halen : dev.addr_len ≤ FC_ALEN)
    (hs : dev.addr_len ≤ (saddr.getD dev.dev_addr).length) :
    ∃ r skb', fc_header skb dev type daddr saddr len = some (r, skb') ∧
      (skb'.data.drop FC_ALEN).take dev.addr_len
        = (saddr.getD dev.dev_addr).take dev.addr_len := by
  have e6 : FC_ALEN = 6 := rfl
  have e12 : fch_hdr_size = 12 := rfl
  have hfch := fch_le_fc_hdr_len type
  have hPl := pushed_length skb (fc_hdr_len type) hroom
  set P := skb.headroom.drop (skb.headroom.length - fc_hdr_len type) with hPdef
  have hsl : ((saddr.getD dev.dev_addr).take dev.addr_len).length = dev.addr_len := by
    rw [List.length_take]; omega
  have hAl : (if type = ETH_P_IP ∨ type = ETH_P_ARP then
        writeBytes (P ++ skb.data) fch_hdr_size (fcllc_bytes type)
      else P ++ skb.data).length = fc_hdr_len type + skb.data.length := by
    split_ifs with hc
    · rw [length_writeBytes, List.length_append, hPl]
    · rw [List.length_append, hPl]
  have hub : FC_ALEN + ((saddr.getD dev.dev_addr).take dev.addr_len).length
      ≤ (if type = ETH_P_IP ∨ type = ETH_P_ARP then
          writeBytes (P ++ skb.data) fch_hdr_size (fcllc_bytes type)
        else P ++ skb.data).length := by
    rw [hAl, hsl]; omega
  have hslice := writeBytes_slice ((saddr.getD dev.dev_addr).take dev.addr_len)
    (if type = ETH_P_IP ∨ type = ETH_P_ARP then
      writeBytes (P ++ skb.data) fch_hdr_size (fcllc_bytes type)
    else P ++ skb.data) FC_ALEN hub
  rw [hsl] at hslice
  cases daddr with
  | some d =>
    rw [fc_header_some_daddr _ _ _ _ _ _ hroom]
    refine ⟨_, _, rfl, ?_⟩
    rw [writeBytes_drop_ge _ _ _ _ (by rw [List.length_take]; omega)]
    exact hslice
  | none =>
    rw [fc_header_none_daddr _ _ _ _ _ hroom]
    exact ⟨_, _, rfl, hslice⟩

/-- Closed witness for C4, with an explicit source address. -/
theorem fc_header_source_field_witness :
    ∃ r skb', fc_header skbA devA ETH_P_ARP none (some srcA) 7 = some (r, skb') ∧
      (skb'.data.drop FC_ALEN).take devA.addr_len
        = ((some srcA).getD devA.dev_addr).take devA.addr_len :=
  fc_header_source_field skbA devA ETH_P_ARP none (some srcA) 7
    (by decide) (by decide) (by decide)

/-- C9: on the pending-resolution path the destination field is not
cleared — the first `FC_ALEN` bytes of the header keep exactly the bytes
that occupied that headroom region before the call. -/
theorem fc_header_pending_dest_region (skb : SKB) (dev : NetDevice) (type : Nat)
    (saddr : Option (List Nat)) (len : Nat)
    (hroom : fc_hdr_len type ≤ skb.headroom.length) :
    ∃ skb', fc_header skb dev type none saddr len
        = some (-(fc_hdr_len type : Int), skb') ∧
      skb'.data.take FC_ALEN
        = (skb.headroom.drop (skb.headroom.length - fc_hdr_len type)).take FC_ALEN := by
  have e6 : FC_ALEN = 6 := rfl
  have e12 : fch_hdr_size = 12 := rfl
  have hfch := fch_le_fc_hdr_len type
  have hPl := pushed_length skb (fc_hdr_len type) hroom
  rw [fc_header_none_daddr _ _ _ _ _ hroom]
  set P := skb.headroom.drop (skb.headroom.length - fc_hdr_len type) with hPdef
  refine ⟨_, rfl, ?_⟩
  rw [writeBytes_take_le _ _ _ _ (Nat.le_refl FC_ALEN)]
  by_cases htype : type = ETH_P_IP ∨ type = ETH_P_ARP
  · rw [if_pos htype, writeBytes_take_le _ _ _ _ (by omega)]
    exact take_append_of_le _ _ _ (by omega)
  · rw [if_neg htype]
    exact take_append_of_le _ _ _ (by omega)

/-- Closed witness for C9. -/
theorem fc_header_pending_dest_region_witness :
    ∃ skb', fc_header skbA devA ETH_P_IP none none 4
        = some (-(fc_hdr_len ETH_P_IP : Int), skb') ∧
      skb'.data.take FC_ALEN
        = (skbA.headroom.drop (skbA.headroom.length - fc_hdr_len ETH_P_IP)).take FC_ALEN :=
  fc_header_pending_dest_region skbA devA ETH_P_IP none 4 (by decide)

/-- C3: with no destination address the builder still reserves the header,
writes the source field and (for IP/ARP) the SNAP sub-header, leaves the
destination region with its prior headroom bytes, and returns the negative
of the header length — whose magnitude is exactly what the same call with a
destination present would return. -/
theorem fc_header_pending_resolution (skb : SKB) (dev : NetDevice) (type : Nat)
    (saddr : Option (List Nat)) (len : Nat)
    (hroom : fc_hdr_len type ≤ skb.headroom.length)
    (halen : dev.addr_len = FC_ALEN)
    (hs : (saddr.getD dev.dev_addr).length = FC_ALEN) :
    ∃ skb', fc_header skb dev type none saddr len
        = some (-(fc_hdr_len type : Int), skb') ∧
      (skb'.data.drop FC_ALEN).take FC_ALEN = saddr.getD dev.dev_addr ∧
      ((type = ETH_P_IP ∨ type = ETH_P_ARP) →
        (skb'.data.drop fch_hdr_size).take fcllc_size = fcllc_bytes type) ∧
      skb'.data.take FC_ALEN
        = (skb.headroom.drop (skb.headroom.length - fc_hdr_len type)).take FC_ALEN ∧
      ∀ d : List Nat, ∃ skb'',
        fc_header skb dev type (some d) saddr len
          = some ((fc_hdr_len type : Int), skb'') := by
  have e6 : FC_ALEN = 6 := rfl
  have e12 : fch_hdr_size = 12 := rfl
  have e8 : fcllc_size = 8 := rfl
  have hfch := fch_le_fc_hdr_len type
  have hPl := pushed_length skb (fc_hdr_len type) hroom
  have hsT : (saddr.getD dev.dev_addr).take dev.addr_len = saddr.getD dev.dev_addr := by
    rw [halen, ← hs, List.take_length]
  rw [fc_header_none_daddr _ _ _ _ _ hroom]
  set P := skb.headroom.drop (skb.headroom.length - fc_hdr_len type) with hPdef
  have hAl : (if type = ETH_P_IP ∨ type = ETH_P_ARP then
        writeBytes (P ++ skb.data) fch_hdr_size (fcllc_bytes type)
      else P ++ skb.data).length = fc_hdr_len type + skb.data.length := by
    split_ifs with hc
    · rw [length_writeBytes, List.length_append, hPl]
    · rw [List.length_append, hPl]
  refine ⟨_, rfl, ?_, ?_, ?_, ?_⟩
  · rw [hsT]
    have h0 := writeBytes_slice (saddr.getD dev.dev_addr)
      (if type = ETH_P_IP ∨ type = ETH_P_ARP then
        writeBytes (P ++ skb.data) fch_hdr_size (fcllc_bytes type)
      else P ++ skb.data) FC_ALEN (by rw [hAl, hs]; omega)
    rw [hs] at h0
    exact h0
  · intro htype
    have hl20 : fc_hdr_len type = fch_hdr_size + fcllc_size := by
      rw [fc_hdr_len, if_pos htype]
    rw [hsT, writeBytes_drop_ge _ _ _ _ (by rw [hs]; omega), if_pos htype]
    have h0 := writeBytes_slice (fcllc_bytes type) (P ++ skb.data) fch_hdr_size
      (by rw [List.length_append, hPl,
            show (fcllc_bytes type).length = fcllc_size from rfl]; omega)
    rw [show (fcllc_bytes type).length = fcllc_size from rfl] at h0
    exact h0
  · rw [hsT, writeBytes_take_le _ _ _ _ (Nat.le_refl FC_ALEN)]
    by_cases htype : type = ETH_P_IP ∨ type = ETH_P_ARP
    · rw [if_pos htype, writeBytes_take_le _ _ _ _ (by omega)]
      exact take_append_of_le _ _ _ (by omega)
    · rw [if_neg htype]
      exact take_append_of_le _ _ _ (by omega)
  · intro d
    rw [fc_header_some_daddr _ _ _ _ _ _ hroom]
    exact ⟨_, rfl⟩

/-- Closed witness for C3, at protocol type `ETH_P_ARP`. -/
theorem fc_header_pending_resolution_witness :
    ∃ skb', fc_header skbA devA ETH_P_ARP none none 2
        = some (-(fc_hdr_len ETH_P_ARP : Int), skb') ∧
      (skb'.data.drop FC_ALEN).take FC_ALEN = (none : Option (List Nat)).getD devA.dev_addr ∧
      ((ETH_P_ARP = ETH_P_IP ∨ ETH_P_ARP = ETH_P_ARP) →
        (skb'.data.drop fch_hdr_size).take fcllc_size = fcllc_bytes ETH_P_ARP) ∧
      skb'.data.take FC_ALEN
        = (skbA.headroom.drop (skbA.headroom.length - fc_hdr_len ETH_P_ARP)).take FC_ALEN ∧
      ∀ d : List Nat, ∃ skb'',
        fc_header skbA devA ETH_P_ARP (some d) none 2
          = some ((fc_hdr_len ETH_P_ARP : Int), skb'') :=
  fc_header_pending_resolution skbA devA ETH_P_ARP none 2
    (by decide) (by decide) (by decide)

/-- C6: the builder writes only inside the freshly reserved header region:
the payload bytes survive unchanged behind the header, and the return
value, leftover headroom and header bytes are independent of the payload
contents and of the `len` argument (which is never written or checked). -/
theorem fc_header_frame_effect (dev : NetDevice) (type : Nat)
    (daddr saddr : Option (List Nat))
    (halen : dev.addr_len ≤ FC_ALEN) :
    (∀ (skb : SKB) (len : Nat) (r : Int) (skb' : SKB),
        fc_header skb dev type daddr saddr len = some (r, skb') →
        skb'.data.drop (fc_hdr_len type) = skb.data) ∧
    (∀ (hr p₁ p₂ : List Nat) (l₁ l₂ : Nat),
        (fc_header ⟨hr, p₁⟩ dev type daddr saddr l₁).map
            (fun x => (x.1, x.2.headroom, x.2.data.take (fc_hdr_len type))) =
        (fc_header ⟨hr, p₂⟩ dev type daddr saddr l₂).map
            (fun x => (x.1, x.2.headroom, x.2.data.take (fc_hdr_len type)))) := by
  have e6 : FC_ALEN = 6 := rfl
  have e12 : fch_hdr_size = 12 := rfl
  have e8 : fcllc_size = 8 := rfl
  have hfch := fch_le_fc_hdr_len type
  constructor
  · intro skb len r skb' heq
    by_cases hle : fc_hdr_len type ≤ skb.headroom.length
    · have hPl := pushed_length skb (fc_hdr_len type) hle
      cases daddr with
      | some d =>
        rw [fc_header_some_daddr _ _ _ _ _ _ hle] at heq
        have h := Option.some.inj heq
        rw [Prod.mk.injEq] at h
        obtain ⟨hr1, hskb⟩ := h
        subst hskb
        dsimp only
        rw [writeBytes_drop_ge _ _ _ _ (by rw [List.length_take]; omega),
          writeBytes_drop_ge _ _ _ _ (by rw [List.length_take]; omega)]
        by_cases htype : type = ETH_P_IP ∨ type = ETH_P_ARP
        · have hl20 : fc_hdr_len type = fch_hdr_size + fcllc_size := by
            rw [fc_hdr_len, if_pos htype]
          rw [if_pos htype, writeBytes_drop_ge _ _ _ _
            (by rw [show (fcllc_bytes type).length = fcllc_size from rfl]; omega)]
          exact List.drop_left' hPl
        · rw [if_neg htype]
          exact List.drop_left' hPl
      | none =>
        rw [fc_header_none_daddr _ _ _ _ _ hle] at heq
        have h := Option.some.inj heq
        rw [Prod.mk.injEq] at h
        obtain ⟨hr1, hskb⟩ := h
        subst hskb
        dsimp only
        rw [writeBytes_drop_ge _ _ _ _ (by rw [List.length_take]; omega)]
        by_cases htype : type = ETH_P_IP ∨ type = ETH_P_ARP
        · have hl20 : fc_hdr_len type = fch_hdr_size + fcllc_size := by
            rw [fc_hdr_len, if_pos htype]
          rw [if_pos htype, writeBytes_drop_ge _ _ _ _
            (by rw [show (fcllc_bytes type).length = fcllc_size from rfl]; omega)]
          exact List.drop_left' hPl
        · rw [if_neg htype]
          exact List.drop_left' hPl
    · rw [fc_header_of_gt _ _ _ _ _ _ (by omega)] at heq
      exact Option.noConfusion heq
  · intro hr p₁ p₂ l₁ l₂
    by_cases hle : fc_hdr_len type ≤ hr.length
    · have hPl : (hr.drop (hr.length - fc_hdr_len type)).length = fc_hdr_len type := by
        rw [List.length_drop]; omega
      have key : ∀ p : List Nat,
          (if type = ETH_P_IP ∨ type = ETH_P_ARP then
            writeBytes (hr.drop (hr.length - fc_hdr_len type) ++ p)
              fch_hdr_size (fcllc_bytes type)
          else hr.drop (hr.length - fc_hdr_len type) ++ p).take (fc_hdr_len type)
          = (if type = ETH_P_IP ∨ type = ETH_P_ARP then
              writeBytes (hr.drop (hr.length - fc_hdr_len type))
                fch_hdr_size (fcllc_bytes type)
            else hr.drop (hr.length - fc_hdr_len type)) := by
        intro p
        split_ifs with hc
        · have hl20 : fc_hdr_len type = fch_hdr_size + fcllc_size := by
            rw [fc_hdr_len, if_pos hc]
          rw [writeBytes_take_comm _ _ _ _
              (by rw [show (fcllc_bytes type).length = fcllc_size from rfl]; omega),
            List.take_left' hPl]
        · rw [List.take_left' hPl]
      cases daddr with
      | some d =>
        rw [fc_header_some_daddr _ _ _ _ _ _ hle, fc_header_some_daddr _ _ _ _ _ _ hle]
        simp only [Option.map_some']
        rw [writeBytes_take_comm _ _ _ _ (by rw [List.length_take]; omega),
          writeBytes_take_comm _ _ _ _ (by rw [List.length_take]; omega),
          writeBytes_take_comm _ _ _ _ (by rw [List.length_take]; omega),
          writeBytes_take_comm _ _ _ _ (by rw [List.length_take]; omega)]
        rw [key p₁, key p₂]
      | none =>
        rw [fc_header_none_daddr _ _ _ _ _ hle, fc_header_none_daddr _ _ _ _ _ hle]
        simp only [Option.map_some']
        rw [writeBytes_take_comm _ _ _ _ (by rw [List.length_take]; omega),
          writeBytes_take_comm _ _ _ _ (by rw [List.length_take]; omega)]
        rw [key p₁, key p₂]
    · rw [fc_header_of_gt _ _ _ _ _ _ (show hr.length < fc_hdr_len type by omega),
        fc_header_of_gt _ _ _ _ _ _ (show hr.length < fc_hdr_len type by omega)]

/-- Closed witness for C6. -/
theorem fc_header_frame_effect_witness :
    (∀ (skb : SKB) (len : Nat) (r : Int) (skb' : SKB),
        fc_header skb devA ETH_P_IP (some dstA) none len = some (r, skb') →
        skb'.data.drop (fc_hdr_len ETH_P_IP) = skb.data) ∧
    (∀ (hr p₁ p₂ : List Nat) (l₁ l₂ : Nat),
        (fc_header ⟨hr, p₁⟩ devA ETH_P_IP (some dstA) none l₁).map
            (fun x => (x.1, x.2.headroom, x.2.data.take (fc_hdr_len ETH_P_IP))) =
        (fc_header ⟨hr, p₂⟩ devA ETH_P_IP (some dstA) none l₂).map
            (fun x => (x.1, x.2.headroom, x.2.data.take (fc_hdr_len ETH_P_IP)))) :=
  fc_header_frame_effect devA ETH_P_IP (some dstA) none (by decide)

end FC

